import Mathlib

/-!
Verification model of the coreMQTT 3.1.1 client engine (MQTT_ProcessLoop,
MQTT_GetPacketId, the publish state tracker, and the lightweight publish
codec).  The engine sources `mqtt.c`, `mqtt_state.c` and `mqtt_lightweight.c`
are not present in this tree; only their unit tests are.  The definitions
below are therefore modelled from the specification (spec.md §3, §4, §6, §7)
and cross-checked against the behaviour encoded in
`libraries/standard/mqtt/utest/mqtt_utest.c`, whose CMock stubs replace the
state tracker and the codec with constant-valued collaborators exactly as the
`LoopEnv` structure below does.
-/

/-- Modelled from the spec: the error taxonomy of §7 (`MQTTStatus_t`).
Every fallible operation of the engine returns one of these by value. -/
inductive MQTTStatus where
  | success
  | badParameter
  | noMemory
  | sendFailed
  | recvFailed
  | badResponse
  | serverRefused
  | noDataAvailable
  | keepAliveTimeout
  | illegalState
deriving DecidableEq, Repr

/-- Modelled from the spec: the publish state record values of §3
(`MQTTPublishState_t`). -/
inductive MQTTPublishState where
  | stateInvalid
  | publishSend
  | pubAckPending
  | pubRecPending
  | pubRelPending
  | pubCompPending
  | pubAckSend
  | pubRecSend
  | pubRelSend
  | pubCompSend
  | publishDone
  | stateNull
deriving DecidableEq, Repr

/-- Modelled from the spec: MQTT 3.1.1 control packet types (§6.1). -/
inductive MQTTPacketType where
  | connect
  | connack
  | publish
  | puback
  | pubrec
  | pubrel
  | pubcomp
  | subscribe
  | suback
  | unsubscribe
  | unsuback
  | pingreq
  | pingresp
  | disconnect
  | invalidType
deriving DecidableEq, Repr

/-- Modelled from the spec: whether a publish record was originated by
sending or by receiving a PUBLISH (§3, originator ∈ \x7bSend, Receive\x7d). -/
inductive MQTTStateOperation where
  | opSend
  | opReceive
deriving DecidableEq, Repr

/-- Modelled from the spec: the connection status of the context (§3). -/
inductive MQTTConnectionStatus where
  | notConnected
  | connected
  | disconnecting
deriving DecidableEq, Repr

/-- Modelled from the spec: the connection context fields relevant to the
process loop, keep-alive and packet-id allocation (§3, `MQTTContext_t`).
Times are 32-bit millisecond counts represented as `Nat` reduced mod 2^32
by `calculateElapsedTime`. -/
structure MQTTContext where
  connectStatus : MQTTConnectionStatus
  nextPacketId : Nat
  keepAliveIntervalSec : Nat
  lastPacketTime : Nat
  pingReqSendTimeMs : Nat
  pingRespTimeoutMs : Nat
  waitingForPingResp : Bool
  controlPacketSent : Bool
deriving DecidableEq, Repr

/-- Modelled from the spec: `MQTT_Init` stores borrowed references, sets
status to NotConnected, `next_packet_id = 1`, clears timers and flags
(§4.3).  The borrowed references themselves are not modelled. -/
def MQTT_Init : MQTTContext :=
  { connectStatus := .notConnected
    nextPacketId := 1
    keepAliveIntervalSec := 0
    lastPacketTime := 0
    pingReqSendTimeMs := 0
    pingRespTimeoutMs := 0
    waitingForPingResp := false
    controlPacketSent := false }

/-- Modelled from the spec: all elapsed-time comparisons are done as
`(now - stored_time)` in 32-bit unsigned arithmetic (§4.3, §9). -/
def calculateElapsedTime (later start : Nat) : Nat :=
  (later % 4294967296 + 4294967296 - start % 4294967296) % 4294967296

/-- Modelled from the spec: `next_packet_id()` returns the current value then
increments, wrapping 0→1 (§3); at 0xFFFF it returns 0xFFFF then 0x0001,
never 0 (§8). -/
def MQTT_GetPacketId (ctx : MQTTContext) : Nat × MQTTContext :=
  let packetId := ctx.nextPacketId
  let incremented := (packetId + 1) % 65536
  (packetId,
   { ctx with nextPacketId := if incremented = 0 then 1 else incremented })

/-- Returns of `n` successive `MQTT_GetPacketId` calls on one context. -/
def getPacketIdSeq (ctx : MQTTContext) : Nat → List Nat
  | 0 => []
  | n + 1 =>
    let r := MQTT_GetPacketId ctx
    r.1 :: getPacketIdSeq r.2 n

/-- Modelled from the spec: the complete legal transition lattice of the
publish state tracker on acknowledgement events (§4.2); anything else
produces `StateNull`. -/
def nextStateAck (ack : MQTTPacketType) (op : MQTTStateOperation)
    (current : MQTTPublishState) : MQTTPublishState :=
  match ack, op, current with
  | .puback, .opReceive, .pubAckPending => .publishDone
  | .puback, .opSend, .pubAckSend => .publishDone
  | .pubrec, .opReceive, .pubRecPending => .pubRelSend
  | .pubrec, .opSend, .pubRecSend => .pubRelPending
  | .pubrel, .opReceive, .pubRelPending => .pubCompSend
  | .pubrel, .opSend, .pubRelSend => .pubCompPending
  | .pubcomp, .opReceive, .pubCompPending => .publishDone
  | .pubcomp, .opSend, .pubCompSend => .publishDone
  | _, _, _ => .stateNull

/-- Modelled from the spec: the tracker result of sending or receiving a
PUBLISH with the given QoS (§4.2). -/
def nextStatePublish (op : MQTTStateOperation) (qos : Nat) : MQTTPublishState :=
  match op, qos with
  | _, 0 => .publishDone
  | .opSend, 1 => .pubAckPending
  | .opSend, 2 => .pubRecPending
  | .opReceive, 1 => .pubAckSend
  | .opReceive, 2 => .pubRecSend
  | _, _ => .stateNull

/-- The acknowledgement packet the engine must serialize and send when the
tracker leaves a record in an ack-send state (§4.2, §4.3 dispatch). -/
def ackPacketFor : MQTTPublishState → Option MQTTPacketType
  | .pubAckSend => some .puback
  | .pubRecSend => some .pubrec
  | .pubRelSend => some .pubrel
  | .pubCompSend => some .pubcomp
  | _ => none

/-- Modelled from the spec: a publish acknowledgement packet is 4 bytes
(fixed header, remaining length 2, packet identifier). -/
def MQTT_PUBLISH_ACK_PACKET_SIZE : Nat := 4

/-- Modelled from the spec: a PINGREQ packet is always 2 bytes (§4.3). -/
def MQTT_PACKET_PINGREQ_SIZE : Nat := 2

/-- Modelled from the spec: the short-write-tolerant transport send loop
(§4.3, §6.2).  `results` gives the value returned by each successive
`transport.send` call; the loop retries on the remainder and fails on zero
progress, a negative return, or a return larger than the bytes requested.
Returns `true` iff all `n` bytes were sent. -/
def sendPacket : List Int → Nat → Bool
  | _, 0 => true
  | [], _ + 1 => false
  | r :: rest, n + 1 =>
    if r ≤ 0 ∨ (((n : Int) + 1) < r) then false
    else sendPacket rest (n + 1 - r.toNat)

/-- The per-iteration environment of the process loop: the values produced
by the mocked collaborators (header reader, deserializers, state tracker,
acknowledgement serializer, transport, clock), exactly the knobs that
`expectProcessLoopCalls` in `mqtt_utest.c` sets for each scenario. -/
structure LoopEnv where
  readStatus : MQTTStatus
  packetType : MQTTPacketType
  deserializeStatus : MQTTStatus
  firstUpdate : MQTTPublishState
  serializeAckStatus : MQTTStatus
  ackSendResults : List Int
  secondUpdate : MQTTPublishState
  pingreqSerializeStatus : MQTTStatus
  pingSendResults : List Int
  now : Nat
deriving Repr

/-- The observable outcome of one process-loop iteration. -/
structure IterResult where
  status : MQTTStatus
  ctx : MQTTContext
  callbackCount : Nat
  sentPacket : Option MQTTPacketType
  recordState : Option MQTTPublishState
deriving Repr

/-- Modelled from the spec: `sendPublishAcks` — after a state-tracker update
leaves a record in an ack-send state, serialize the acknowledgement (failure
→ SendFailed), send it (short writes retried, zero progress or negative →
SendFailed), then run the post-send tracker update; a produced `StateNull`
surfaces as IllegalState (§4.2, §4.3 step 2). -/
def sendPublishAcks (ctx : MQTTContext) (env : LoopEnv)
    (stateAfterUpdate : MQTTPublishState) (cb : Nat) : IterResult :=
  match ackPacketFor stateAfterUpdate with
  | some ack =>
    if env.serializeAckStatus ≠ .success then
      { status := .sendFailed, ctx := ctx, callbackCount := cb
        sentPacket := none, recordState := some stateAfterUpdate }
    else if sendPacket env.ackSendResults MQTT_PUBLISH_ACK_PACKET_SIZE then
      let ctx2 := { ctx with lastPacketTime := env.now, controlPacketSent := true }
      if env.secondUpdate = .stateNull then
        { status := .illegalState, ctx := ctx2, callbackCount := cb
          sentPacket := some ack, recordState := none }
      else
        { status := .success, ctx := ctx2, callbackCount := cb
          sentPacket := some ack, recordState := some env.secondUpdate }
    else
      { status := .sendFailed, ctx := ctx, callbackCount := cb
        sentPacket := none, recordState := some stateAfterUpdate }
  | none =>
    if stateAfterUpdate = .stateNull then
      { status := .illegalState, ctx := ctx, callbackCount := cb
        sentPacket := none, recordState := none }
    else
      { status := .success, ctx := ctx, callbackCount := cb
        sentPacket := none, recordState := some stateAfterUpdate }

/-- Modelled from the spec: PUBLISH dispatch — deserialize, update inbound
state, invoke the user callback, then serialize and send the PUBACK/PUBREC
required by the new state (§4.3 step 2). -/
def handleIncomingPublish (ctx : MQTTContext) (env : LoopEnv) : IterResult :=
  if env.deserializeStatus ≠ .success then
    { status := env.deserializeStatus, ctx := ctx, callbackCount := 0
      sentPacket := none, recordState := none }
  else
    sendPublishAcks ctx env env.firstUpdate 1

/-- Modelled from the spec: PUBACK/PUBREC/PUBREL/PUBCOMP dispatch —
deserialize, update state, invoke the callback once on a terminal
acknowledgement (PUBACK/PUBCOMP), and serialize and send the follow-up
acknowledgement demanded by the new state (§4.3 step 2, §6.4). -/
def handleIncomingAck (ctx : MQTTContext) (env : LoopEnv)
    (ackType : MQTTPacketType) : IterResult :=
  if env.deserializeStatus ≠ .success then
    { status := env.deserializeStatus, ctx := ctx, callbackCount := 0
      sentPacket := none, recordState := none }
  else
    let cb := if ackType = .puback ∨ ackType = .pubcomp then 1 else 0
    sendPublishAcks ctx env env.firstUpdate cb

/-- Modelled from the spec: SUBACK/UNSUBACK invoke the user callback with no
state mutation; PINGRESP clears `waiting_for_ping_resp` (§4.3 step 2). -/
def handleSimpleAck (ctx : MQTTContext) (env : LoopEnv)
    (t : MQTTPacketType) : IterResult :=
  if env.deserializeStatus ≠ .success then
    { status := env.deserializeStatus, ctx := ctx, callbackCount := 0
      sentPacket := none, recordState := none }
  else if t = .pingresp then
    { status := .success, ctx := { ctx with waitingForPingResp := false }
      callbackCount := 0, sentPacket := none, recordState := none }
  else
    { status := .success, ctx := ctx, callbackCount := 1
      sentPacket := none, recordState := none }

/-- Modelled from the spec: the read and dispatch phases of one process-loop
iteration (§4.3 steps 1–2).  `NoDataAvailable` from the header reader skips
straight to keep-alive; any other failure is surfaced; otherwise the packet
is dispatched on its type, and a type outside the dispatch table is
`BadResponse`. -/
def receiveSingleIteration (ctx : MQTTContext) (env : LoopEnv) : IterResult :=
  if env.readStatus = .noDataAvailable then
    { status := .success, ctx := ctx, callbackCount := 0
      sentPacket := none, recordState := none }
  else if env.readStatus ≠ .success then
    { status := env.readStatus, ctx := ctx, callbackCount := 0
      sentPacket := none, recordState := none }
  else
    match env.packetType with
    | .publish => handleIncomingPublish ctx env
    | .puback => handleIncomingAck ctx env .puback
    | .pubrec => handleIncomingAck ctx env .pubrec
    | .pubrel => handleIncomingAck ctx env .pubrel
    | .pubcomp => handleIncomingAck ctx env .pubcomp
    | .suback => handleSimpleAck ctx env .suback
    | .unsuback => handleSimpleAck ctx env .unsuback
    | .pingresp => handleSimpleAck ctx env .pingresp
    | _ =>
      { status := .badResponse, ctx := ctx, callbackCount := 0
        sentPacket := none, recordState := none }

/-- Modelled from the spec: the keep-alive phase (§4.3 step 3).  With a
non-zero keep-alive interval: if waiting for a ping response past the ping
response timeout, KeepAliveTimeout; otherwise if the keep-alive interval has
elapsed since the last packet, serialize and send PINGREQ (serialization
failure or send failure → SendFailed) and set the flag.  Returns the status,
the updated context, and whether a PINGREQ was sent. -/
def handleKeepAlive (ctx : MQTTContext) (env : LoopEnv) :
    MQTTStatus × MQTTContext × Bool :=
  if ctx.keepAliveIntervalSec = 0 then (.success, ctx, false)
  else if ctx.waitingForPingResp then
    if ctx.pingRespTimeoutMs ≤ calculateElapsedTime env.now ctx.pingReqSendTimeMs
    then (.keepAliveTimeout, ctx, false)
    else (.success, ctx, false)
  else if ctx.keepAliveIntervalSec * 1000 ≤
      calculateElapsedTime env.now ctx.lastPacketTime then
    if env.pingreqSerializeStatus ≠ .success then (.sendFailed, ctx, false)
    else if sendPacket env.pingSendResults MQTT_PACKET_PINGREQ_SIZE then
      (.success,
       { ctx with waitingForPingResp := true
                  pingReqSendTimeMs := env.now
                  lastPacketTime := env.now
                  controlPacketSent := true },
       true)
    else (.sendFailed, ctx, false)
  else (.success, ctx, false)

/-- Modelled from the spec: one full process-loop iteration — read phase,
dispatch phase, then, when they did not fail, the keep-alive phase (§4.3,
§7: the loop surfaces the first non-Success, non-NoDataAvailable status in
the iteration and stops). -/
def processLoopIteration (ctx : MQTTContext) (env : LoopEnv) : IterResult :=
  let r := receiveSingleIteration ctx env
  if r.status ≠ .success then r
  else
    let ka := handleKeepAlive r.ctx env
    { status := ka.1, ctx := ka.2.1, callbackCount := r.callbackCount
      sentPacket := if ka.2.2 then some .pingreq else r.sentPacket
      recordState := r.recordState }

/-- Modelled from the spec: the process-loop iteration driver — run one
iteration per environment, stop on the first failure or as soon as
`get_time() - entry_time ≥ timeout_ms` (§4.3).  Returns the final status,
the final context, and the number of iterations that ran. -/
def processLoopFrom (entryTime timeoutMs : Nat) :
    MQTTContext → List LoopEnv → MQTTStatus × MQTTContext × Nat
  | ctx, [] => (.success, ctx, 0)
  | ctx, env :: rest =>
    let r := processLoopIteration ctx env
    if r.status ≠ .success then (r.status, r.ctx, 1)
    else if timeoutMs ≤ calculateElapsedTime env.now entryTime then
      (.success, r.ctx, 1)
    else
      let rec2 := processLoopFrom entryTime timeoutMs r.ctx rest
      (rec2.1, rec2.2.1, rec2.2.2 + 1)

/-- Modelled from the spec: `MQTT_ProcessLoop(context, timeout_ms)` — a NULL
context is rejected with BadParameter before any iteration performs
transport I/O or mutates state (§7: BadParameter = null input;
`test_MQTT_ProcessLoop_invalid_params`). -/
def MQTT_ProcessLoop (pContext : Option MQTTContext) (envs : List LoopEnv)
    (entryTime timeoutMs : Nat) : MQTTStatus × Option MQTTContext × Nat :=
  match pContext with
  | none => (.badParameter, none, 0)
  | some ctx =>
    let r := processLoopFrom entryTime timeoutMs ctx envs
    (r.1, some r.2.1, r.2.2)

/-- Modelled from the spec: the publish information record of the codec
(`MQTTPublishInfo_t`): QoS, retain flag, DUP flag, topic name and payload,
the latter two as byte lists (§4.1). -/
structure MQTTPublishInfo where
  qos : Nat
  retain : Bool
  dup : Bool
  topicName : List Nat
  payload : List Nat
deriving DecidableEq, Repr

/-- Modelled from the spec: the largest value a remaining-length
variable-byte integer can represent (§4.1). -/
def MQTT_MAX_REMAINING_LENGTH : Nat := 268435455

/-- Modelled from the spec: MSB-continuation encoding of the
remaining-length variable-byte integer, 1–4 bytes for values up to
268,435,455 (§4.1). -/
def encodeRemainingLength (n : Nat) : List Nat :=
  if n < 128 then [n]
  else (n % 128 + 128) :: encodeRemainingLength (n / 128)
termination_by n
decreasing_by
  exact Nat.div_lt_self (by omega) (by omega)

/-- Modelled from the spec: incremental decode of the remaining-length
variable-byte integer; a 5th continuation byte fails (§4.1).  `acc` is the
value of the bytes consumed so far and `count` their number; returns the
decoded value and the unconsumed bytes. -/
def decodeRemainingLengthAux : List Nat → Nat → Nat → Option (Nat × List Nat)
  | [], _, _ => none
  | b :: rest, acc, count =>
    if 4 ≤ count then none
    else if b < 128 then some (acc + b * 128 ^ count, rest)
    else decodeRemainingLengthAux rest (acc + b % 128 * 128 ^ count) (count + 1)

/-- Modelled from the spec: decode a remaining-length field from the front
of a byte list (§4.1). -/
def decodeRemainingLength (bytes : List Nat) : Option (Nat × List Nat) :=
  decodeRemainingLengthAux bytes 0 0

/-- Big-endian two-byte encoding of a 16-bit integer (§4.1: multi-byte
integers are big-endian). -/
def u16be (n : Nat) : List Nat :=
  [n / 256 % 256, n % 256]

/-- Modelled from the spec: the remaining length of a PUBLISH packet — topic
length field, topic, packet identifier when QoS > 0, payload (§4.1.1,
OASIS MQTT 3.1.1). -/
def publishRemainingLength (info : MQTTPublishInfo) : Nat :=
  2 + info.topicName.length + (if 0 < info.qos then 2 else 0) +
    info.payload.length

/-- Modelled from the spec: `get_publish_packet_size` — returns the exact
remaining length and total byte count of the serialized PUBLISH, or `none`
when the remaining length exceeds the variable-byte-integer maximum
(§4.1.1). -/
def MQTT_GetPublishPacketSize (info : MQTTPublishInfo) : Option (Nat × Nat) :=
  let rl := publishRemainingLength info
  if rl ≤ MQTT_MAX_REMAINING_LENGTH then
    some (rl, 1 + (encodeRemainingLength rl).length + rl)
  else none

/-- Modelled from the spec: the PUBLISH fixed-header byte —
`(3 <<< 4) | (dup <<< 3) | (qos <<< 1) | retain` (§6.1). -/
def publishHeaderByte (info : MQTTPublishInfo) : Nat :=
  48 + (if info.dup then 8 else 0) + 2 * info.qos + (if info.retain then 1 else 0)

/-- The wire bytes of a serialized PUBLISH packet (§4.1.1, §6.1). -/
def serializePublishBytes (info : MQTTPublishInfo) (packetId : Nat) : List Nat :=
  publishHeaderByte info ::
    encodeRemainingLength (publishRemainingLength info) ++
    u16be info.topicName.length ++ info.topicName ++
    (if 0 < info.qos then u16be packetId else []) ++ info.payload

/-- Modelled from the spec: `serialize_publish(info, buf)` — BadParameter
when a field violates MQTT 3.1.1 (QoS ≥ 3, empty or oversized topic, DUP
with QoS 0, zero or oversized packet id with QoS > 0), NoMemory when the
total size exceeds the buffer length, otherwise the packet bytes (§4.1.1). -/
def MQTT_SerializePublish (info : MQTTPublishInfo) (packetId bufSize : Nat) :
    Except MQTTStatus (List Nat) :=
  if 3 ≤ info.qos ∨ info.topicName.length = 0 ∨ 65536 ≤ info.topicName.length
      ∨ (info.dup ∧ info.qos = 0)
      ∨ (0 < info.qos ∧ (packetId = 0 ∨ 65536 ≤ packetId)) then
    .error .badParameter
  else
    match MQTT_GetPublishPacketSize info with
    | none => .error .badParameter
    | some (_, total) =>
      if bufSize < total then .error .noMemory
      else .ok (serializePublishBytes info packetId)

/-- Modelled from the spec: `deserialize_publish(packet)` — parses a
complete PUBLISH packet already in memory, verifying the type nibble, QoS
validity, DUP+QoS0 illegality, topic length, packet-length consistency and
a non-zero packet identifier for QoS > 0; invalid → BadResponse (§4.1.3). -/
def MQTT_DeserializePublish (bytes : List Nat) :
    Except MQTTStatus (MQTTPublishInfo × Nat) :=
  match bytes with
  | [] => .error .badResponse
  | header :: afterHeader =>
    if header / 16 ≠ 3 then .error .badResponse
    else
      let dupFlag := header / 8 % 2 = 1
      let qos := header / 2 % 4
      let retainFlag := header % 2 = 1
      if qos = 3 then .error .badResponse
      else if dupFlag ∧ qos = 0 then .error .badResponse
      else
        match decodeRemainingLength afterHeader with
        | none => .error .badResponse
        | some (rl, body) =>
          if body.length ≠ rl then .error .badResponse
          else
            match body with
            | t1 :: t0 :: afterTopicLen =>
              let topicLen := t1 % 256 * 256 + t0 % 256
              if topicLen = 0 then .error .badResponse
              else if afterTopicLen.length <
                  topicLen + (if 0 < qos then 2 else 0) then
                .error .badResponse
              else
                let topic := afterTopicLen.take topicLen
                let afterTopic := afterTopicLen.drop topicLen
                if qos = 0 then
                  .ok ({ qos := 0, retain := retainFlag, dup := dupFlag
                         topicName := topic, payload := afterTopic }, 0)
                else
                  match afterTopic with
                  | p1 :: p0 :: payload =>
                    let packetId := p1 % 256 * 256 + p0 % 256
                    if packetId = 0 then .error .badResponse
                    else
                      .ok ({ qos := qos, retain := retainFlag, dup := dupFlag
                             topicName := topic, payload := payload }, packetId)
                  | _ => .error .badResponse
            | _ => .error .badResponse

/-- A PublishInfo and packet id the codec accepts: QoS ≤ 2, no DUP with
QoS 0, non-empty topic of at most 65535 bytes, byte-valued topic and
payload, packet id in [1, 65535] when QoS > 0, and a remaining length
within the variable-byte-integer range (§4.1.1, claim C3's "valid"). -/
def validPublishInfo (info : MQTTPublishInfo) (packetId : Nat) : Prop :=
  info.qos ≤ 2 ∧ ¬(info.dup ∧ info.qos = 0) ∧
    0 < info.topicName.length ∧ info.topicName.length < 65536 ∧
    (∀ b ∈ info.topicName, b < 256) ∧ (∀ b ∈ info.payload, b < 256) ∧
    (0 < info.qos → 1 ≤ packetId ∧ packetId < 65536) ∧
    publishRemainingLength info ≤ MQTT_MAX_REMAINING_LENGTH

instance (info : MQTTPublishInfo) (packetId : Nat) :
    Decidable (validPublishInfo info packetId) := by
  unfold validPublishInfo
  infer_instance

/-- Test fixture: an iteration in which the header reader reports no data
(`test_MQTT_ProcessLoop_handleKeepAlive_error_paths`). -/
def testNoDataEnv : LoopEnv :=
  { readStatus := .noDataAvailable
    packetType := .invalidType
    deserializeStatus := .success
    firstUpdate := .stateNull
    serializeAckStatus := .success
    ackSendResults := [4]
    secondUpdate := .stateNull
    pingreqSerializeStatus := .success
    pingSendResults := [2]
    now := 1000 }

/-- Test fixture: keep-alive interval 1 s, waiting for a ping response sent
at time 0 with a 500 ms response timeout (spec §8 scenario 4). -/
def testKeepAliveContext : MQTTContext :=
  { MQTT_Init with
      keepAliveIntervalSec := 1
      waitingForPingResp := true
      pingRespTimeoutMs := 500 }

/-- Test fixture: an inbound QoS 1 PUBLISH iteration, tracker answering
PubAckSend then PublishDone (`handleIncomingPublish` happy path). -/
def testPublishEnv : LoopEnv :=
  { readStatus := .success
    packetType := .publish
    deserializeStatus := .success
    firstUpdate := .pubAckSend
    serializeAckStatus := .success
    ackSendResults := [4]
    secondUpdate := .publishDone
    pingreqSerializeStatus := .success
    pingSendResults := [2]
    now := 10 }

/-- Test fixture: an inbound PUBREC iteration, tracker answering PubRelSend
then PubCompPending (`handleIncomingAck` happy path). -/
def testPubrecEnv : LoopEnv :=
  { testPublishEnv with
      packetType := .pubrec
      firstUpdate := .pubRelSend
      secondUpdate := .pubCompPending }

/-- Test fixture: an inbound PUBREC whose PUBREL serialization fails with
NoMemory (`handleIncomingAck` error path). -/
def testSerializeFailEnv : LoopEnv :=
  { testPubrecEnv with serializeAckStatus := .noMemory }

/-- Test fixture: an inbound PUBREC whose post-send tracker update yields
StateNull (`handleIncomingAck` error path). -/
def testStateNullEnv : LoopEnv :=
  { testPubrecEnv with secondUpdate := .stateNull }

/-- The range invariant of the packet-id counter is preserved by one call. -/
theorem MQTT_GetPacketId_next_range (ctx : MQTTContext)
    (h1 : 1 ≤ ctx.nextPacketId) (h2 : ctx.nextPacketId ≤ 65535) :
    1 ≤ (MQTT_GetPacketId ctx).2.nextPacketId ∧
      (MQTT_GetPacketId ctx).2.nextPacketId ≤ 65535 := by
  simp only [MQTT_GetPacketId]
  split <;> omega

/-- Every id produced by a call sequence stays in `[1, 65535]`. -/
theorem getPacketIdSeq_mem_range (n : Nat) (ctx : MQTTContext)
    (h1 : 1 ≤ ctx.nextPacketId) (h2 : ctx.nextPacketId ≤ 65535) :
    ∀ id ∈ getPacketIdSeq ctx n, 1 ≤ id ∧ id ≤ 65535 := by
  induction n generalizing ctx with
  | zero => simp [getPacketIdSeq]
  | succ k ih =>
    intro id hid
    simp only [getPacketIdSeq, List.mem_cons] at hid
    rcases hid with h | h
    · exact h ▸ ⟨h1, h2⟩
    · obtain ⟨g1, g2⟩ := MQTT_GetPacketId_next_range ctx h1 h2
      exact ih (MQTT_GetPacketId ctx).2 g1 g2 id h

/-- Consecutive ids produced by a call sequence differ. -/
theorem getPacketIdSeq_chain_ne (n : Nat) (ctx : MQTTContext)
    (h1 : 1 ≤ ctx.nextPacketId) (h2 : ctx.nextPacketId ≤ 65535) :
    List.Chain' (fun a b => a ≠ b) (getPacketIdSeq ctx n) := by
  induction n generalizing ctx with
  | zero => simp [getPacketIdSeq]
  | succ k ih =>
    obtain ⟨g1, g2⟩ := MQTT_GetPacketId_next_range ctx h1 h2
    rw [getPacketIdSeq, List.chain'_cons']
    refine ⟨?_, ih (MQTT_GetPacketId ctx).2 g1 g2⟩
    intro y hy
    cases k with
    | zero => simp [getPacketIdSeq] at hy
    | succ m =>
      simp only [getPacketIdSeq, List.head?_cons, Option.mem_def,
        Option.some.injEq] at hy
      subst hy
      simp only [MQTT_GetPacketId]
      split <;> omega

/-- C4: `MQTT_GetPacketId` returns the context's current next-packet-id and
then increments it; every returned value over any call sequence lies in
[1, 65535] (never 0); no two consecutive returns are equal; and at 0xFFFF
the call returns 0xFFFF and the next call returns 1. -/
theorem MQTT_GetPacketId_complete (ctx : MQTTContext) (n : Nat)
    (h1 : 1 ≤ ctx.nextPacketId) (h2 : ctx.nextPacketId ≤ 65535) :
    (MQTT_GetPacketId ctx).1 = ctx.nextPacketId ∧
    (MQTT_GetPacketId ctx).2.nextPacketId =
      (if ctx.nextPacketId = 65535 then 1 else ctx.nextPacketId + 1) ∧
    (∀ id ∈ getPacketIdSeq ctx n, 1 ≤ id ∧ id ≤ 65535) ∧
    List.Chain' (fun a b => a ≠ b) (getPacketIdSeq ctx n) ∧
    (ctx.nextPacketId = 65535 → getPacketIdSeq ctx 2 = [65535, 1]) := by
  refine ⟨rfl, ?_, getPacketIdSeq_mem_range n ctx h1 h2,
    getPacketIdSeq_chain_ne n ctx h1 h2, ?_⟩
  · simp only [MQTT_GetPacketId]
    split <;> split <;> omega
  · intro h
    simp [getPacketIdSeq, MQTT_GetPacketId, h]

/-- C4 witness: the theorem instantiated on a freshly initialised context
and a four-call sequence. -/
theorem MQTT_GetPacketId_complete_witness :
    (MQTT_GetPacketId MQTT_Init).1 = MQTT_Init.nextPacketId ∧
    (∀ id ∈ getPacketIdSeq MQTT_Init 4, 1 ≤ id ∧ id ≤ 65535) ∧
    List.Chain' (fun a b => a ≠ b) (getPacketIdSeq MQTT_Init 4) :=
  ⟨(MQTT_GetPacketId_complete MQTT_Init 4 (by decide) (by decide)).1,
   (MQTT_GetPacketId_complete MQTT_Init 4 (by decide) (by decide)).2.2.1,
   (MQTT_GetPacketId_complete MQTT_Init 4 (by decide) (by decide)).2.2.2.1⟩

/-- C5: with `timeout_ms = 0`, `MQTT_ProcessLoop` on a valid (non-null)
context runs exactly one iteration before returning, regardless of the
clock values observed during the iteration. -/
theorem MQTT_ProcessLoop_zero_timeout_one_iteration (ctx : MQTTContext)
    (env : LoopEnv) (rest : List LoopEnv) (entryTime : Nat) :
    (MQTT_ProcessLoop (some ctx) (env :: rest) entryTime 0).2.2 = 1 := by
  by_cases h : (processLoopIteration ctx env).status = MQTTStatus.success
  · simp [MQTT_ProcessLoop, processLoopFrom, h, Nat.zero_le]
  · simp [MQTT_ProcessLoop, processLoopFrom, h]

/-- C10: `MQTT_ProcessLoop` on a NULL context returns BadParameter for every
timeout, running zero iterations (hence no transport I/O) and leaving no
context state to mutate. -/
theorem MQTT_ProcessLoop_null_context (envs : List LoopEnv)
    (entryTime timeoutMs : Nat) :
    MQTT_ProcessLoop none envs entryTime timeoutMs =
      (.badParameter, none, 0) := rfl

/-- C9: the engine's unsigned 32-bit elapsed-time subtraction recovers the
true elapsed time `delta ≤ 2^31` between stored time `t1` and a clock that
may have wrapped, so every threshold comparison decides `delta ≥ threshold`
exactly. -/
theorem calculateElapsedTime_wraparound (t1 delta : Nat)
    (h1 : t1 < 4294967296) (h2 : delta ≤ 2147483648) :
    calculateElapsedTime ((t1 + delta) % 4294967296) t1 = delta ∧
    ∀ threshold,
      (threshold ≤ calculateElapsedTime ((t1 + delta) % 4294967296) t1 ↔
        threshold ≤ delta) := by
  have h : calculateElapsedTime ((t1 + delta) % 4294967296) t1 = delta := by
    unfold calculateElapsedTime
    omega
  exact ⟨h, fun threshold => by rw [h]⟩

/-- C9 witness: a stored time near the wrap point and a 1000 ms advance that
wraps the 32-bit clock to the numerically smaller value 704. -/
theorem calculateElapsedTime_wraparound_witness :
    (4294967000 + 1000) % 4294967296 = 704 ∧
    calculateElapsedTime ((4294967000 + 1000) % 4294967296) 4294967000 = 1000 :=
  ⟨by norm_num,
   (calculateElapsedTime_wraparound 4294967000 1000 (by norm_num)
     (by norm_num)).1⟩

/-- C6: a process-loop call whose iteration reaches the keep-alive phase
with a non-zero keep-alive interval, `waiting_for_ping_resp` set, and an
unsigned 32-bit elapsed time since the ping request of at least the ping
response timeout, returns KeepAliveTimeout. -/
theorem processLoop_keepAliveTimeout (ctx : MQTTContext) (env : LoopEnv)
    (rest : List LoopEnv) (entryTime timeoutMs : Nat)
    (hreach : (receiveSingleIteration ctx env).status = .success)
    (h1 : (receiveSingleIteration ctx env).ctx.keepAliveIntervalSec ≠ 0)
    (h2 : (receiveSingleIteration ctx env).ctx.waitingForPingResp = true)
    (h3 : (receiveSingleIteration ctx env).ctx.pingRespTimeoutMs ≤
      calculateElapsedTime env.now
        (receiveSingleIteration ctx env).ctx.pingReqSendTimeMs) :
    (processLoopIteration ctx env).status = .keepAliveTimeout ∧
    (MQTT_ProcessLoop (some ctx) (env :: rest) entryTime timeoutMs).1 =
      .keepAliveTimeout := by
  have hiter : (processLoopIteration ctx env).status = .keepAliveTimeout := by
    simp only [processLoopIteration, hreach, ne_eq, not_true_eq_false,
      if_false, ite_false]
    simp [handleKeepAlive, h1, h2, h3]
  refine ⟨hiter, ?_⟩
  simp [MQTT_ProcessLoop, processLoopFrom, hiter]

/-- C6 witness: the spec §8 scenario-4 fixture — ping sent at 0, response
timeout 500 ms, clock at 1000 ms, no inbound data. -/
theorem processLoop_keepAliveTimeout_witness :
    (processLoopIteration testKeepAliveContext testNoDataEnv).status =
      .keepAliveTimeout :=
  (processLoop_keepAliveTimeout testKeepAliveContext testNoDataEnv [] 0 0
    (by decide) (by decide) (by decide) (by decide)).1

/-- When an acknowledgement must be sent but its serialization fails, the
engine reports SendFailed, regardless of the serializer's own status. -/
theorem sendPublishAcks_serialize_failure (ctx : MQTTContext) (env : LoopEnv)
    (st : MQTTPublishState) (cb : Nat)
    (hack : (ackPacketFor st).isSome = true)
    (hser : env.serializeAckStatus ≠ .success) :
    sendPublishAcks ctx env st cb =
      { status := .sendFailed, ctx := ctx, callbackCount := cb
        sentPacket := none, recordState := some st } := by
  obtain ⟨a, ha⟩ := Option.isSome_iff_exists.mp hack
  unfold sendPublishAcks
  rw [ha]
  simp [hser]

/-- When the acknowledgement is serialized and fully sent and the post-send
tracker update is decisive, the engine records the send and adopts the
post-send tracker state. -/
theorem sendPublishAcks_sent_ok (ctx : MQTTContext) (env : LoopEnv)
    (st : MQTTPublishState) (cb : Nat) (a : MQTTPacketType)
    (ha : ackPacketFor st = some a)
    (hser : env.serializeAckStatus = .success)
    (hsend : sendPacket env.ackSendResults MQTT_PUBLISH_ACK_PACKET_SIZE = true)
    (hsn : env.secondUpdate ≠ .stateNull) :
    sendPublishAcks ctx env st cb =
      { status := .success
        ctx := { ctx with lastPacketTime := env.now, controlPacketSent := true }
        callbackCount := cb, sentPacket := some a
        recordState := some env.secondUpdate } := by
  unfold sendPublishAcks
  rw [ha]
  simp [hser, hsend, hsn]

/-- When the acknowledgement is serialized and fully sent but the post-send
tracker update produces StateNull, the engine reports IllegalState. -/
theorem sendPublishAcks_sent_stateNull (ctx : MQTTContext) (env : LoopEnv)
    (st : MQTTPublishState) (cb : Nat) (a : MQTTPacketType)
    (ha : ackPacketFor st = some a)
    (hser : env.serializeAckStatus = .success)
    (hsend : sendPacket env.ackSendResults MQTT_PUBLISH_ACK_PACKET_SIZE = true)
    (hnull : env.secondUpdate = .stateNull) :
    sendPublishAcks ctx env st cb =
      { status := .illegalState
        ctx := { ctx with lastPacketTime := env.now, controlPacketSent := true }
        callbackCount := cb, sentPacket := some a, recordState := none } := by
  unfold sendPublishAcks
  rw [ha]
  simp [hser, hsend, hnull]

/-- With a successful read of a PUBLISH or publish acknowledgement and a
successful deserialization, the dispatch phase reduces to
`sendPublishAcks` on the tracker's first answer, with the user callback
invoked on PUBLISH and on terminal acknowledgements. -/
theorem receiveSingleIteration_eq_sendPublishAcks (ctx : MQTTContext)
    (env : LoopEnv) (hread : env.readStatus = .success)
    (htype : env.packetType = .publish ∨ env.packetType = .puback ∨
      env.packetType = .pubrec ∨ env.packetType = .pubrel ∨
      env.packetType = .pubcomp)
    (hde : env.deserializeStatus = .success) :
    ∃ cb, receiveSingleIteration ctx env =
      sendPublishAcks ctx env env.firstUpdate cb := by
  rcases htype with h | h | h | h | h
  · exact ⟨1, by simp [receiveSingleIteration, handleIncomingPublish, hread,
      h, hde]⟩
  · exact ⟨1, by simp [receiveSingleIteration, handleIncomingAck, hread,
      h, hde]⟩
  · exact ⟨0, by simp [receiveSingleIteration, handleIncomingAck, hread,
      h, hde]⟩
  · exact ⟨0, by simp [receiveSingleIteration, handleIncomingAck, hread,
      h, hde]⟩
  · exact ⟨1, by simp [receiveSingleIteration, handleIncomingAck, hread,
      h, hde]⟩

/-- C7: when a process-loop iteration must serialize an automatic
acknowledgement (PUBACK, PUBREC, PUBREL or PUBCOMP, i.e. the tracker left
the record in an ack-send state) and the acknowledgement serializer fails
with any non-success status such as NoMemory, the call returns SendFailed
rather than the serializer's own status. -/
theorem processLoop_serializeAckFailure_sendFailed (ctx : MQTTContext)
    (env : LoopEnv) (rest : List LoopEnv) (entryTime timeoutMs : Nat)
    (hread : env.readStatus = .success)
    (htype : env.packetType = .publish ∨ env.packetType = .puback ∨
      env.packetType = .pubrec ∨ env.packetType = .pubrel ∨
      env.packetType = .pubcomp)
    (hde : env.deserializeStatus = .success)
    (hack : (ackPacketFor env.firstUpdate).isSome = true)
    (hser : env.serializeAckStatus ≠ .success) :
    (processLoopIteration ctx env).status = .sendFailed ∧
    (MQTT_ProcessLoop (some ctx) (env :: rest) entryTime timeoutMs).1 =
      .sendFailed := by
  obtain ⟨cb, hr⟩ := receiveSingleIteration_eq_sendPublishAcks ctx env
    hread htype hde
  have hiter : (processLoopIteration ctx env).status = .sendFailed := by
    simp [processLoopIteration, hr,
      sendPublishAcks_serialize_failure ctx env env.firstUpdate cb hack hser]
  refine ⟨hiter, ?_⟩
  simp [MQTT_ProcessLoop, processLoopFrom, hiter]

/-- C7 witness: the `handleIncomingAck` error-path fixture — inbound PUBREC,
tracker answers PubRelSend, PUBREL serialization returns NoMemory. -/
theorem processLoop_serializeAckFailure_sendFailed_witness :
    (processLoopIteration MQTT_Init testSerializeFailEnv).status =
      .sendFailed ∧
    (MQTT_ProcessLoop (some MQTT_Init) [testSerializeFailEnv] 0 0).1 =
      .sendFailed :=
  processLoop_serializeAckFailure_sendFailed MQTT_Init testSerializeFailEnv
    [] 0 0 (by decide) (by decide) (by decide) (by decide) (by decide)

/-- C8: when a process-loop iteration serializes and fully sends an
acknowledgement but the state tracker's post-send update produces
StateNull, the call returns IllegalState. -/
theorem processLoop_stateNull_illegalState (ctx : MQTTContext)
    (env : LoopEnv) (rest : List LoopEnv) (entryTime timeoutMs : Nat)
    (hread : env.readStatus = .success)
    (htype : env.packetType = .publish ∨ env.packetType = .puback ∨
      env.packetType = .pubrec ∨ env.packetType = .pubrel ∨
      env.packetType = .pubcomp)
    (hde : env.deserializeStatus = .success)
    (hack : (ackPacketFor env.firstUpdate).isSome = true)
    (hser : env.serializeAckStatus = .success)
    (hsend : sendPacket env.ackSendResults MQTT_PUBLISH_ACK_PACKET_SIZE = true)
    (hnull : env.secondUpdate = .stateNull) :
    (processLoopIteration ctx env).status = .illegalState ∧
    (MQTT_ProcessLoop (some ctx) (env :: rest) entryTime timeoutMs).1 =
      .illegalState := by
  obtain ⟨cb, hr⟩ := receiveSingleIteration_eq_sendPublishAcks ctx env
    hread htype hde
  obtain ⟨a, ha⟩ := Option.isSome_iff_exists.mp hack
  have hiter : (processLoopIteration ctx env).status = .illegalState := by
    simp [processLoopIteration, hr, sendPublishAcks_sent_stateNull ctx env
      env.firstUpdate cb a ha hser hsend hnull]
  refine ⟨hiter, ?_⟩
  simp [MQTT_ProcessLoop, processLoopFrom, hiter]

/-- C8 witness: the `handleIncomingAck` error-path fixture — inbound PUBREC,
PUBREL serialized and sent, second tracker update answers StateNull. -/
theorem processLoop_stateNull_illegalState_witness :
    (processLoopIteration MQTT_Init testStateNullEnv).status =
      .illegalState ∧
    (MQTT_ProcessLoop (some MQTT_Init) [testStateNullEnv] 0 0).1 =
      .illegalState :=
  processLoop_stateNull_illegalState MQTT_Init testStateNullEnv [] 0 0
    (by decide) (by decide) (by decide) (by decide) (by decide) (by decide)
    (by decide)

/-- C1: an iteration that reads a PUBLISH and deserializes it successfully:
when the tracker's update answers PubAckSend (QoS 1), the engine serializes
and sends a PUBACK and the record — under the §4.2 tracker — advances to
PublishDone; when it answers PubRecSend (QoS 2), the engine serializes and
sends a PUBREC and the record advances to PubRelPending; in both cases the
user callback is invoked once and the call returns Success (keep-alive
disabled as in the cited test fixture). -/
theorem processLoop_incomingPublish_happy_paths (ctx : MQTTContext)
    (env : LoopEnv) (rest : List LoopEnv) (entryTime : Nat)
    (hka : ctx.keepAliveIntervalSec = 0)
    (hread : env.readStatus = .success)
    (htype : env.packetType = .publish)
    (hde : env.deserializeStatus = .success)
    (hser : env.serializeAckStatus = .success)
    (hsend : sendPacket env.ackSendResults MQTT_PUBLISH_ACK_PACKET_SIZE = true) :
    (env.firstUpdate = .pubAckSend →
      env.secondUpdate = nextStateAck .puback .opSend .pubAckSend →
      (processLoopIteration ctx env).status = .success ∧
      (processLoopIteration ctx env).sentPacket = some .puback ∧
      (processLoopIteration ctx env).recordState = some .publishDone ∧
      (processLoopIteration ctx env).callbackCount = 1 ∧
      (MQTT_ProcessLoop (some ctx) (env :: rest) entryTime 0).1 = .success) ∧
    (env.firstUpdate = .pubRecSend →
      env.secondUpdate = nextStateAck .pubrec .opSend .pubRecSend →
      (processLoopIteration ctx env).status = .success ∧
      (processLoopIteration ctx env).sentPacket = some .pubrec ∧
      (processLoopIteration ctx env).recordState = some .pubRelPending ∧
      (processLoopIteration ctx env).callbackCount = 1 ∧
      (MQTT_ProcessLoop (some ctx) (env :: rest) entryTime 0).1 = .success) := by
  have hr : receiveSingleIteration ctx env =
      sendPublishAcks ctx env env.firstUpdate 1 := by
    simp [receiveSingleIteration, handleIncomingPublish, hread, htype, hde]
  constructor
  · intro hfst hsnd
    simp only [nextStateAck] at hsnd
    have hsn : env.secondUpdate ≠ .stateNull := by rw [hsnd]; decide
    have hs := sendPublishAcks_sent_ok ctx env env.firstUpdate 1 .puback
      (by rw [hfst]; rfl) hser hsend hsn
    rw [hsnd] at hs
    have hiter : processLoopIteration ctx env =
        { status := .success
          ctx := { ctx with lastPacketTime := env.now, controlPacketSent := true }
          callbackCount := 1, sentPacket := some .puback
          recordState := some .publishDone } := by
      simp [processLoopIteration, hr, hs, hsnd, handleKeepAlive, hka]
    refine ⟨by rw [hiter], by rw [hiter], by rw [hiter], by rw [hiter], ?_⟩
    simp [MQTT_ProcessLoop, processLoopFrom, hiter, Nat.zero_le]
  · intro hfst hsnd
    simp only [nextStateAck] at hsnd
    have hsn : env.secondUpdate ≠ .stateNull := by rw [hsnd]; decide
    have hs := sendPublishAcks_sent_ok ctx env env.firstUpdate 1 .pubrec
      (by rw [hfst]; rfl) hser hsend hsn
    rw [hsnd] at hs
    have hiter : processLoopIteration ctx env =
        { status := .success
          ctx := { ctx with lastPacketTime := env.now, controlPacketSent := true }
          callbackCount := 1, sentPacket := some .pubrec
          recordState := some .pubRelPending } := by
      simp [processLoopIteration, hr, hs, hsnd, handleKeepAlive, hka]
    refine ⟨by rw [hiter], by rw [hiter], by rw [hiter], by rw [hiter], ?_⟩
    simp [MQTT_ProcessLoop, processLoopFrom, hiter, Nat.zero_le]

/-- C1 witness: the QoS 1 happy-path fixture — inbound PUBLISH, tracker
answers PubAckSend, PUBACK sent, record closes at PublishDone. -/
theorem processLoop_incomingPublish_happy_paths_witness :
    (processLoopIteration MQTT_Init testPublishEnv).status = .success ∧
    (processLoopIteration MQTT_Init testPublishEnv).sentPacket =
      some .puback ∧
    (processLoopIteration MQTT_Init testPublishEnv).recordState =
      some .publishDone ∧
    (processLoopIteration MQTT_Init testPublishEnv).callbackCount = 1 :=
  have h := (processLoop_incomingPublish_happy_paths MQTT_Init testPublishEnv
    [] 0 (by decide) (by decide) (by decide) (by decide) (by decide)
    (by decide)).1 (by decide) (by decide)
  ⟨h.1, h.2.1, h.2.2.1, h.2.2.2.1⟩

/-- C2: an iteration that reads a PUBREC, deserializes it successfully, and
whose tracker update answers PubRelSend: the engine serializes and sends a
PUBREL, the record — under the §4.2 tracker — advances to PubCompPending,
and the call returns Success (keep-alive disabled as in the cited test
fixture). -/
theorem processLoop_incomingPubrec_sends_pubrel (ctx : MQTTContext)
    (env : LoopEnv) (rest : List LoopEnv) (entryTime : Nat)
    (hka : ctx.keepAliveIntervalSec = 0)
    (hread : env.readStatus = .success)
    (htype : env.packetType = .pubrec)
    (hde : env.deserializeStatus = .success)
    (hfst : env.firstUpdate = .pubRelSend)
    (hser : env.serializeAckStatus = .success)
    (hsend : sendPacket env.ackSendResults MQTT_PUBLISH_ACK_PACKET_SIZE = true)
    (hsnd : env.secondUpdate = nextStateAck .pubrel .opSend .pubRelSend) :
    (processLoopIteration ctx env).status = .success ∧
    (processLoopIteration ctx env).sentPacket = some .pubrel ∧
    (processLoopIteration ctx env).recordState = some .pubCompPending ∧
    (MQTT_ProcessLoop (some ctx) (env :: rest) entryTime 0).1 = .success := by
  have hr : receiveSingleIteration ctx env =
      sendPublishAcks ctx env env.firstUpdate 0 := by
    simp [receiveSingleIteration, handleIncomingAck, hread, htype, hde]
  simp only [nextStateAck] at hsnd
  have hsn : env.secondUpdate ≠ .stateNull := by rw [hsnd]; decide
  have hs := sendPublishAcks_sent_ok ctx env env.firstUpdate 0 .pubrel
    (by rw [hfst]; rfl) hser hsend hsn
  rw [hsnd] at hs
  have hiter : processLoopIteration ctx env =
      { status := .success
        ctx := { ctx with lastPacketTime := env.now, controlPacketSent := true }
        callbackCount := 0, sentPacket := some .pubrel
        recordState := some .pubCompPending } := by
    simp [processLoopIteration, hr, hs, hsnd, handleKeepAlive, hka]
  refine ⟨by rw [hiter], by rw [hiter], by rw [hiter], ?_⟩
  simp [MQTT_ProcessLoop, processLoopFrom, hiter, Nat.zero_le]

/-- C2 witness: the PUBREC happy-path fixture — outbound QoS 2 record,
inbound PUBREC, PUBREL sent, record advances to PubCompPending. -/
theorem processLoop_incomingPubrec_sends_pubrel_witness :
    (processLoopIteration MQTT_Init testPubrecEnv).status = .success ∧
    (processLoopIteration MQTT_Init testPubrecEnv).sentPacket =
      some .pubrel ∧
    (processLoopIteration MQTT_Init testPubrecEnv).recordState =
      some .pubCompPending :=
  have h := processLoop_incomingPubrec_sends_pubrel MQTT_Init testPubrecEnv
    [] 0 (by decide) (by decide) (by decide) (by decide) (by decide)
    (by decide) (by decide) (by decide)
  ⟨h.1, h.2.1, h.2.2.1⟩

/-- Decoding an MSB-continuation encoding appended to any suffix recovers
the encoded value and the suffix, for any decoder position that still has
room for the encoding. -/
theorem decodeRemainingLengthAux_encode (n : Nat) :
    ∀ (acc count : Nat) (rest : List Nat), count < 4 → n < 128 ^ (4 - count) →
      decodeRemainingLengthAux (encodeRemainingLength n ++ rest) acc count =
        some (acc + n * 128 ^ count, rest) := by
  induction n using Nat.strong_induction_on with
  | _ n ih =>
    intro acc count rest hc hn
    rw [encodeRemainingLength]
    by_cases h : n < 128
    · simp only [if_pos h, List.cons_append, List.nil_append,
        decodeRemainingLengthAux]
      rw [if_neg (by omega)]
    · simp only [if_neg h, List.cons_append, decodeRemainingLengthAux]
      rw [if_neg (by omega), if_neg (by omega)]
      have hc2 : count + 1 < 4 := by
        rcases Nat.lt_or_ge count 3 with hlt | hge
        · omega
        · exfalso
          have : 4 - count ≤ 1 := by omega
          have : 128 ^ (4 - count) ≤ 128 ^ 1 :=
            Nat.pow_le_pow_right (by omega) this
          simp at this
          omega
      have hdiv : n / 128 < 128 ^ (4 - (count + 1)) := by
        have hexp : 128 ^ (4 - count) = 128 ^ (4 - (count + 1)) * 128 := by
          have : 4 - count = (4 - (count + 1)) + 1 := by omega
          rw [this, pow_succ]
        apply Nat.div_lt_of_lt_mul
        rw [Nat.mul_comm]
        rw [hexp] at hn
        exact hn
      rw [ih (n / 128) (Nat.div_lt_self (by omega) (by omega)) _ (count + 1)
        rest hc2 hdiv]
      have key : (n % 128 + 128) % 128 * 128 ^ count +
          n / 128 * 128 ^ (count + 1) = n * 128 ^ count := by
        have hm : (n % 128 + 128) % 128 = n % 128 := by omega
        rw [hm]
        calc n % 128 * 128 ^ count + n / 128 * 128 ^ (count + 1)
            = (n % 128 + n / 128 * 128) * 128 ^ count := by ring
          _ = n * 128 ^ count := by rw [Nat.mod_add_div']
      rw [Nat.add_assoc, key]

/-- Decoding the remaining-length encoding of any value in range, appended
to any suffix, recovers the value and the suffix. -/
theorem decodeRemainingLength_encode (n : Nat) (rest : List Nat)
    (hn : n ≤ MQTT_MAX_REMAINING_LENGTH) :
    decodeRemainingLength (encodeRemainingLength n ++ rest) =
      some (n, rest) := by
  have h := decodeRemainingLengthAux_encode n 0 0 rest (by omega)
    (by simpa [MQTT_MAX_REMAINING_LENGTH] using
      Nat.lt_succ_of_le (by simpa [MQTT_MAX_REMAINING_LENGTH] using hn))
  simpa [decodeRemainingLength] using h

/-- Deserializing the exact wire bytes produced by the publish serializer
recovers the original publish information (and packet id when QoS > 0). -/
theorem deserialize_serializePublishBytes (info : MQTTPublishInfo)
    (packetId : Nat) (hvalid : validPublishInfo info packetId) :
    MQTT_DeserializePublish (serializePublishBytes info packetId) =
      .ok (info, if 0 < info.qos then packetId else 0) := by
  obtain ⟨hq, hnd, htp, htl, htb, hpb, hpid, hrl⟩ := hvalid
  rcases info with ⟨qos, retain, dup, topic, payload⟩
  simp only [publishRemainingLength] at hrl
  simp only at hq hnd htp htl hpid
  interval_cases qos
  · cases dup
    · cases retain <;>
        (simp only [serializePublishBytes, publishHeaderByte,
           publishRemainingLength, MQTT_DeserializePublish, u16be,
           List.cons_append, List.nil_append]
         norm_num
         have hrl2 : 2 + topic.length + payload.length ≤
             MQTT_MAX_REMAINING_LENGTH := by
           norm_num at hrl
           simp only [MQTT_MAX_REMAINING_LENGTH] at hrl ⊢
           omega
         rw [decodeRemainingLength_encode _ _ hrl2]
         simp only [List.length_cons, List.length_append]
         rw [if_pos (by omega)]
         rw [if_neg (by omega)]
         rw [if_neg (by omega)]
         have ht : topic.length / 256 % 256 % 256 * 256 +
             topic.length % 256 % 256 = topic.length := by omega
         rw [ht, List.take_left, List.drop_left])
    · exact absurd (by simp) hnd
  all_goals
    cases dup <;> cases retain <;>
      (simp only [serializePublishBytes, publishHeaderByte,
         publishRemainingLength, MQTT_DeserializePublish, u16be,
         List.cons_append, List.nil_append]
       norm_num
       have hrl2 : 2 + topic.length + 2 + payload.length ≤
           MQTT_MAX_REMAINING_LENGTH := by
         norm_num at hrl
         simp only [MQTT_MAX_REMAINING_LENGTH] at hrl ⊢
         omega
       rw [decodeRemainingLength_encode _ _ hrl2]
       simp only [List.length_cons, List.length_append]
       rw [if_pos (by omega)]
       rw [if_neg (by omega)]
       rw [if_neg (by omega)]
       have ht : topic.length / 256 % 256 % 256 * 256 +
           topic.length % 256 % 256 = topic.length := by omega
       rw [ht, List.take_left, List.drop_left]
       have hp1 : 1 ≤ packetId := (hpid (by omega)).1
       have hp2 : packetId < 65536 := (hpid (by omega)).2
       have hp : packetId / 256 % 256 % 256 * 256 +
           packetId % 256 % 256 = packetId := by omega
       simp only []
       rw [if_neg (by omega), hp])

/-- C3: for every valid PublishInfo, serializing with `MQTT_SerializePublish`
into a buffer at least as large as the packet-size probe reports succeeds,
and deserializing the resulting bytes with `MQTT_DeserializePublish` yields
a PublishInfo equal to the original in topic, QoS, retain flag, DUP flag
and payload. -/
theorem MQTT_SerializePublish_DeserializePublish_roundtrip
    (info : MQTTPublishInfo) (packetId bufSize : Nat)
    (hvalid : validPublishInfo info packetId)
    (hbuf : ∃ rl total, MQTT_GetPublishPacketSize info = some (rl, total) ∧
      total ≤ bufSize) :
    ∃ bytes, MQTT_SerializePublish info packetId bufSize = .ok bytes ∧
      ∃ out pid, MQTT_DeserializePublish bytes = .ok (out, pid) ∧
        out.topicName = info.topicName ∧ out.qos = info.qos ∧
        out.retain = info.retain ∧ out.dup = info.dup ∧
        out.payload = info.payload := by
  have hv := hvalid
  obtain ⟨hq, hnd, htp, htl, htb, hpb, hpid, hrl⟩ := hv
  obtain ⟨rl, total, hsz, hle⟩ := hbuf
  have hguard : ¬(3 ≤ info.qos ∨ info.topicName.length = 0 ∨
      65536 ≤ info.topicName.length ∨ (info.dup ∧ info.qos = 0) ∨
      (0 < info.qos ∧ (packetId = 0 ∨ 65536 ≤ packetId))) := by
    push_neg
    refine ⟨by omega, by omega, by omega, ?_, ?_⟩
    · intro hd
      exact fun h0 => hnd ⟨hd, h0⟩
    · intro hpos
      obtain ⟨ha, hb⟩ := hpid hpos
      omega
  refine ⟨serializePublishBytes info packetId, ?_, info,
    if 0 < info.qos then packetId else 0,
    deserialize_serializePublishBytes info packetId hvalid,
    rfl, rfl, rfl, rfl, rfl⟩
  simp only [MQTT_SerializePublish, if_neg hguard, hsz]
  rw [if_neg (by omega)]

/-- C3 witness: the round trip evaluated on a QoS 1 retained publish to
topic "iot" with a two-byte payload and packet id 7. -/
theorem MQTT_SerializePublish_DeserializePublish_roundtrip_witness :
    ∃ bytes,
      MQTT_SerializePublish
        { qos := 1, retain := true, dup := false,
          topicName := [105, 111, 116], payload := [104, 105] } 7 50 =
        .ok bytes ∧
      ∃ out pid, MQTT_DeserializePublish bytes = .ok (out, pid) ∧
        out.topicName = [105, 111, 116] ∧ out.qos = 1 ∧
        out.retain = true ∧ out.dup = false ∧ out.payload = [104, 105] :=
  MQTT_SerializePublish_DeserializePublish_roundtrip
    { qos := 1, retain := true, dup := false,
      topicName := [105, 111, 116], payload := [104, 105] } 7 50
    (by decide)
    ⟨9, 11, by
      have he : encodeRemainingLength 9 = [9] := by
        rw [encodeRemainingLength]
        norm_num
      norm_num [MQTT_GetPublishPacketSize, publishRemainingLength,
        MQTT_MAX_REMAINING_LENGTH, he], by norm_num⟩
